import Mathlib

/-
Verification development for the telegram job-scraper repository.

The JavaScript sources are shallowly embedded as executable Lean
definitions:

* `JobFilter` (src/modules/jobFilter.js): keyword filtering with a
  word-boundary regular-expression test.  The call
  `new RegExp("\\b" + keyword + "\\b", "i")` is modelled by compiling
  the keyword into a small regex fragment (literal characters, the `.`
  wildcard and the `+` quantifier); regex syntax characters outside the
  fragment are conservatively mapped to a construction error, matching
  the fact that the repository never escapes keyword metacharacters.
  The case-insensitive flag is modelled by the lowercasing that the
  code already performs on both the keywords and the text.
* `MessageStorage` (src/utils/storage.js): the dedup ledger, a JS `Set`
  modelled as an insertion-ordered duplicate-free list plus the file
  contents written by `save`.
* `JobScraperApp.processMessage` (src/index.js): the per-message
  pipeline; the outcome of the single effectful `forwardMessage` call
  is a boolean parameter (`true` = delivered, `false` = the awaited
  call raised and the surrounding `catch` swallowed the error).
* `TelegramChannelClient.getNewMessages` (src/unnamed/part_000): the
  cursor update, with the transport response passed in as data.
* `BotHandler.validateChat` (src/modules/botHandler.js): destination
  validation, with `getMe().username` and the `getChat` lookup passed
  in as parameters.
* `JobScraperApp.handleReconnection` / the polling timer (src/index.js):
  a small state machine driven one timer tick at a time.
-/

/-! ## Message model (the fields read by jobFilter.js and index.js) -/

/-- An inline entity of a Telegram message; only its optional `text`
field is read by `extractText`. -/
structure MsgEntity where
  text : Option String
deriving DecidableEq

/-- The reply target of a message; only its optional `message` field is
read by `extractText`. -/
structure MsgReply where
  message : Option String
deriving DecidableEq

/-- A source-channel message with the fields the repository reads:
`id`, `message` (body), `caption`, `entities`, `replyTo`. -/
structure Message where
  id : Nat
  message : Option String := none
  caption : Option String := none
  entities : Option (List MsgEntity) := none
  replyTo : Option MsgReply := none
deriving DecidableEq

/-- A plain text message, as produced by the source transport. -/
def mkTextMessage (mid : Nat) (body : String) : Message :=
  { id := mid, message := some body }

/-! ## Character and string helpers (models of the JS string operations) -/

/-- JS regex word character (`\w` and the `\b` word/non-word test):
ASCII letter, digit or underscore. -/
def isWordChar (c : Char) : Bool :=
  c.isAlpha || c.isDigit || c = '_'

/-- Model of `String.prototype.toLowerCase` on the ASCII fragment
(ASCII is all the claims exercise). -/
def toLowerLC (l : List Char) : List Char :=
  l.map Char.toLower

/-- Model of `String.prototype.trim`: drop whitespace at both ends. -/
def trimLC (l : List Char) : List Char :=
  ((l.dropWhile Char.isWhitespace).reverse.dropWhile Char.isWhitespace).reverse

/-- String-level lowercasing built on `toLowerLC`. -/
def strToLower (s : String) : String :=
  ⟨toLowerLC s.data⟩

/-- The slice of a character list from index `i` (inclusive) to `j`
(exclusive). -/
def sliceLC (s : List Char) (i j : Nat) : List Char :=
  (s.drop i).take (j - i)

/-- Whether position `i` of the list holds a word character
(out-of-range positions count as non-word, like the ends of a JS
string). -/
def isWordIdx (s : List Char) (i : Nat) : Bool :=
  match s.get? i with
  | some c => isWordChar c
  | none => false

/-- JS regex `\b`: a word boundary holds at position `i` (between
index `i - 1` and index `i`) iff exactly one of the neighbouring
positions holds a word character. -/
def boundary (s : List Char) : Nat → Bool
  | 0 => isWordIdx s 0
  | i + 1 => isWordIdx s i != isWordIdx s (i + 1)

/-! ## Regex fragment: `\b` + keyword + `\b`

`containsKeywords` builds `new RegExp("\\b" + keyword + "\\b", "i")`
without escaping the keyword.  The fragment modelled here covers the
keyword alphabets the claims exercise: word characters as literal
atoms, `.` as the any-character atom, and `+` as the one-or-more
quantifier (a `+` with nothing before it to repeat is a construction
error, exactly as `new RegExp` throws "Nothing to repeat").  Any other
regex syntax character is outside the modelled fragment and is
conservatively mapped to a construction error. -/

/-- A regex atom of the modelled fragment. -/
inductive RAtom where
  | lit (c : Char)
  | anyChar
deriving DecidableEq

/-- An atom together with its quantifier (`one` = exactly once,
`plus` = one or more). -/
inductive RItem where
  | one (a : RAtom)
  | plus (a : RAtom)
deriving DecidableEq

/-- Does a single character match an atom? -/
def matchAtom (a : RAtom) (c : Char) : Bool :=
  match a with
  | .lit d => decide (d = c)
  | .anyChar => true

/-- Does the item sequence match the whole character list?  `plus`
consumes one character and may then keep consuming.  (The characters
are the first argument so that the recursion is structural and the
function reduces under `decide`.) -/
def matchChars : List Char → List RItem → Bool
  | [], items => items.isEmpty
  | _ :: _, [] => false
  | c :: cs, .one a :: rest => matchAtom a c && matchChars cs rest
  | c :: cs, .plus a :: rest =>
      matchAtom a c && (matchChars cs rest || matchChars cs (.plus a :: rest))

/-- `matchSeq items cs`: the item sequence matches exactly the
character list `cs`. -/
def matchSeq (items : List RItem) (cs : List Char) : Bool :=
  matchChars cs items

/-- Compile the characters of a keyword into regex items (accumulator
in reverse order).  Word characters and other points of the modelled
fragment become atoms; a misplaced `+` — and any regex syntax
character outside the fragment — yields a construction error. -/
def compileAux : List Char → List RItem → Except Unit (List RItem)
  | [], acc => .ok acc.reverse
  | c :: cs, acc =>
      if isWordChar c then compileAux cs (.one (.lit c) :: acc)
      else if c = '.' then compileAux cs (.one .anyChar :: acc)
      else if c = '+' then
        match acc with
        | .one a :: tl => compileAux cs (.plus a :: tl)
        | _ => .error ()
      else .error ()

/-- Model of `new RegExp("\\b" + keyword + "\\b", "i")`: compile the
interpolated keyword; the surrounding `\b` anchors are applied by
`regexTest`. -/
def compileWordRegex (kw : String) : Except Unit (List RItem) :=
  compileAux kw.data []

/-- Model of `regex.test(text)` for the pattern `\b` items `\b`: some
segment of the text, delimited by word boundaries on both sides, is
matched by the items. -/
def regexTest (items : List RItem) (s : List Char) : Bool :=
  (List.range (s.length + 1)).any fun i =>
    (List.range (s.length + 1)).any fun j =>
      decide (i ≤ j) && boundary s i && boundary s j &&
        matchSeq items (sliceLC s i j)

/-! ## JobFilter (src/modules/jobFilter.js) -/

/-- The `JobFilter` class state: its (lowercased) keyword list. -/
structure JobFilter where
  keywords : List String
deriving DecidableEq

/-- The `JobFilter` constructor: `keywords.map(k => k.toLowerCase())`. -/
def mkJobFilter (ks : List String) : JobFilter :=
  ⟨ks.map strToLower⟩

/-- One optional text fragment of `extractText`: a truthy string
contributes itself plus a trailing space, a missing or empty string
contributes nothing (JS falsy check). -/
def optText (o : Option String) : String :=
  match o with
  | none => ""
  | some s => if s = "" then "" else s ++ " "

/-- The entity loop of `extractText`. -/
def entitiesText (o : Option (List MsgEntity)) : String :=
  match o with
  | none => ""
  | some es => es.foldl (fun acc e => acc ++ optText e.text) ""

/-- The reply part of `extractText`. -/
def replyText (o : Option MsgReply) : String :=
  match o with
  | none => ""
  | some r => optText r.message

/-- `JobFilter.extractText`: concatenate body, caption, entity texts
and replied-to body, then `trim().toLowerCase()`. -/
def extractText (m : Message) : String :=
  ⟨toLowerLC (trimLC (optText m.message ++ optText m.caption ++
      entitiesText m.entities ++ replyText m.replyTo).data)⟩

/-- The keyword loop of `containsKeywords`: build each keyword regex
(a thrown construction error propagates), return `true` on the first
match. -/
def keywordLoop : List String → List Char → Except Unit Bool
  | [], _ => .ok false
  | k :: rest, t =>
      match compileWordRegex k with
      | .error e => .error e
      | .ok items => if regexTest items t then .ok true else keywordLoop rest t

/-- `JobFilter.containsKeywords(text)`: `false` on empty text,
otherwise run the keyword loop on the lowercased text.  The `Except`
carries a thrown regex construction error to the caller. -/
def JobFilter.containsKeywords (f : JobFilter) (text : String) : Except Unit Bool :=
  if text.data = [] then .ok false
  else keywordLoop f.keywords (toLowerLC text.data)

/-- `JobFilter.isJobPost(message)`: empty extracted text is no match;
any exception from the body is caught and reported as no match. -/
def JobFilter.isJobPost (f : JobFilter) (m : Message) : Bool :=
  let text := extractText m
  if text.data = [] then false
  else
    match f.containsKeywords text with
    | .ok b => b
    | .error _ => false

/-! ## Spec-side text predicates

These definitions follow the words of the specification, not the code;
they are compared against the embedded code above. -/

/-- Spec-side predicate, following the claim wording "the text contains
k as a whole word (word-boundary anchored)": the keyword occurs
verbatim at some position with word boundaries at both ends. -/
def wholeWordOccurs (k s : String) : Bool :=
  (List.range (s.data.length + 1)).any fun i =>
    decide (sliceLC s.data i (i + k.data.length) = k.data) &&
      boundary s.data i && boundary s.data (i + k.data.length)

/-- Split a character list on spaces (helper for the spec-side token
containment predicate). -/
def splitOnSpaceAux : List Char → List Char → List (List Char)
  | [], cur => [cur.reverse]
  | c :: cs, cur =>
      if c = ' ' then cur.reverse :: splitOnSpaceAux cs []
      else splitOnSpaceAux cs (c :: cur)

/-- Spec-side predicate, following the claim wording "contains the
keyword verbatim as a whole word": the keyword is one of the
space-delimited tokens of the text. -/
def occursAsToken (k s : String) : Bool :=
  decide (k.data ∈ splitOnSpaceAux s.data [])

/-- Spec-side predicate: the text literally contains the keyword as a
substring somewhere. -/
def containsSubstr (k s : String) : Bool :=
  (List.range (s.data.length + 1)).any fun i =>
    decide (sliceLC s.data i (i + k.data.length) = k.data)

deriving instance DecidableEq for Except

/-! ## MessageStorage (src/utils/storage.js)

The JS `Set` of processed ids is modelled as its insertion-order
element list (`Set.add` appends only when absent; re-adding keeps the
original position).  `stored` models the `messageIds` array last
written to the storage file (`none` = no file). -/

/-- The `MessageStorage` state: the in-memory `Set` (as its
insertion-order list) and the persisted file contents. -/
structure MessageStorage where
  processedIds : List Nat
  stored : Option (List Nat)
deriving DecidableEq

/-- `save()`: write `Array.from(this.processedIds)` to the file. -/
def MessageStorage.save (st : MessageStorage) : MessageStorage :=
  { st with stored := some st.processedIds }

/-- `isProcessed(messageId)`: membership in the set. -/
def MessageStorage.isProcessed (st : MessageStorage) (mid : Nat) : Bool :=
  decide (mid ∈ st.processedIds)

/-- `markProcessed(messageId)`: `Set.add` (append when absent), then
`save()` unconditionally. -/
def MessageStorage.markProcessed (st : MessageStorage) (mid : Nat) : MessageStorage :=
  MessageStorage.save
    { st with
      processedIds :=
        if mid ∈ st.processedIds then st.processedIds
        else st.processedIds ++ [mid] }

/-- `cleanup(maxSize = 10000)`: when the set is larger than `maxSize`,
keep `Array.from(set).slice(-maxSize)` — the last `maxSize` elements in
insertion order — and save.  (JS quirk kept: `slice(-0)` is `slice(0)`,
the whole array, so a zero ceiling retains everything.) -/
def MessageStorage.cleanup (st : MessageStorage) (maxSize : Nat := 10000) : MessageStorage :=
  if maxSize < st.processedIds.length then
    MessageStorage.save
      { st with
        processedIds :=
          if maxSize = 0 then st.processedIds
          else st.processedIds.drop (st.processedIds.length - maxSize) }
  else st

/-- `new Set(array)`: deduplicate keeping the first occurrence of each
element, in order. -/
def setFromList (l : List Nat) : List Nat :=
  l.foldl (fun acc a => if a ∈ acc then acc else acc ++ [a]) []

/-- `load()` on a fresh `MessageStorage`: a missing file yields an
empty set, otherwise `new Set(parsed.messageIds)`. -/
def loadStorage (file : Option (List Nat)) : MessageStorage :=
  { processedIds := setFromList (file.getD []), stored := file }

/-! ## The per-message pipeline (JobScraperApp.processMessage, src/index.js) -/

/-- Observable outcome of one `processMessage` call: the storage
afterwards, whether `forwardMessage` was invoked, and the returned
boolean. -/
structure ProcOut where
  storage : MessageStorage
  forwardAttempted : Bool
  returned : Bool
deriving DecidableEq

/-- `processMessage(message)`.  `forwardOk` is the outcome of the one
effectful call that can throw inside the `try` block
(`botHandler.forwardMessage`): `true` = delivered, `false` = it raised
and the surrounding `catch` returned `false` before `markProcessed`
ran.  (`isJobPost` never throws — it catches internally — and
`markProcessed`/`save` never throw — `save` catches write errors.) -/
def processMessage (f : JobFilter) (st : MessageStorage) (m : Message)
    (forwardOk : Bool) : ProcOut :=
  if st.isProcessed m.id then ⟨st, false, false⟩
  else if !(f.isJobPost m) then ⟨st.markProcessed m.id, false, false⟩
  else if forwardOk then ⟨st.markProcessed m.id, true, true⟩
  else ⟨st, true, false⟩

/-! ## The source reader cursor (TelegramChannelClient.getNewMessages) -/

/-- The client state read and written by `getNewMessages`. -/
structure ClientState where
  isConnected : Bool
  lastMessageId : Nat
deriving DecidableEq

/-- `getNewMessages(channel, limit)`: throws when not connected;
otherwise the transport response `fetched` is returned and the cursor
is raised to the maximum observed id when that maximum exceeds it
(`Math.max(...messages.map(m => m.id))`), and only then. -/
def getNewMessages (st : ClientState) (fetched : List Message) :
    Except String (ClientState × List Message) :=
  if !st.isConnected then .error ("Client not connected")
  else if 0 < fetched.length then
    let maxId := (fetched.map Message.id).foldl Nat.max 0
    if st.lastMessageId < maxId then
      .ok ({ st with lastMessageId := maxId }, fetched)
    else .ok (st, fetched)
  else .ok (st, fetched)

/-- One poll step at the client: the state after `getNewMessages`
(a thrown error leaves the caller with the old state). -/
def pollStep (st : ClientState) (fetched : List Message) : ClientState :=
  match getNewMessages st fetched with
  | .ok (st2, _) => st2
  | .error _ => st

/-- A sequence of `getNewMessages` calls with the given transport
responses. -/
def runPolls (st : ClientState) (batches : List (List Message)) : ClientState :=
  batches.foldl pollStep st

/-! ## BotHandler.validateChat (src/modules/botHandler.js) -/

/-- The JS test `/^-?\d+$/.test(targetChannel)`: an optional leading
minus followed by one or more ASCII digits, and nothing else. -/
def isNumericId (s : String) : Bool :=
  match s.data with
  | [] => false
  | c :: rest =>
      if c = '-' then !rest.isEmpty && rest.all Char.isDigit
      else (c :: rest).all Char.isDigit

/-- `targetChannel.replace('@', '')`: JS `replace` with a string
pattern removes only the first occurrence. -/
def removeFirstAt : List Char → List Char
  | [] => []
  | c :: cs => if c = '@' then cs else c :: removeFirstAt cs

/-- `validateChat(targetChannel)`.  `botUsername` is `getMe().username`
and `getChat` is the Bot API lookup, `none` meaning the lookup threw.
Numeric-looking ids return unchanged (before either network call);
a username equal to the bot user name (case-insensitively, after
stripping the first `@`) throws; a failed lookup falls back to the raw
`@username` form; a successful lookup returns the canonical chat id. -/
def validateChat (targetChannel : String) (botUsername : String)
    (getChat : String → Option Int) : Except String String :=
  if isNumericId targetChannel then .ok targetChannel
  else
    let username : String := ⟨removeFirstAt targetChannel.data⟩
    if strToLower username = strToLower botUsername then
      .error ("Cannot send messages to bot own username")
    else
      match getChat ("@" ++ username) with
      | some chatId => .ok (toString chatId)
      | none => .ok ("@" ++ username)

/-! ## Reconnection and polling (JobScraperApp, src/index.js)

A small state machine for the orchestrator, driven one interval tick
at a time in the regime the claim describes: the channel is
unreachable, so every poll throws a connectivity error and every
`telegramClient.reconnect()` attempt fails. -/

/-- The orchestrator state observable by the reconnection claim:
`isRunning` and the interval timer, the consecutive-failure counter
`reconnectAttempts` (bounded by `maxReconnectAttempts = 5`), plus two
event counters: `reconnectTries` counts `telegramClient.reconnect()`
invocations and `polls` counts poll bodies that ran. -/
structure AppState where
  isRunning : Bool
  pollTimerActive : Bool
  reconnectAttempts : Nat
  reconnectTries : Nat
  polls : Nat
deriving DecidableEq

/-- `maxReconnectAttempts` (src/index.js line 25). -/
def maxReconnectAttempts : Nat := 5

/-- `stop()`: clear `isRunning` and cancel the poll interval. -/
def AppState.stop (s : AppState) : AppState :=
  { s with isRunning := false, pollTimerActive := false }

/-- `handleReconnection()`: once the budget is exhausted, `stop()`;
otherwise count the attempt and run `telegramClient.reconnect()`,
resetting the counter on success. -/
def handleReconnection (s : AppState) (reconnectSucceeds : Bool) : AppState :=
  if maxReconnectAttempts ≤ s.reconnectAttempts then s.stop
  else
    let s2 := { s with
      reconnectAttempts := s.reconnectAttempts + 1,
      reconnectTries := s.reconnectTries + 1 }
    if reconnectSucceeds then { s2 with reconnectAttempts := 0 } else s2

/-- `pollForMessages()` in the disconnected regime: return immediately
when not running; otherwise `getNewMessages` throws a connectivity
error and the catch block calls `handleReconnection`, whose reconnect
attempt fails. -/
def pollDisconnected (s : AppState) : AppState :=
  if !s.isRunning then s
  else handleReconnection { s with polls := s.polls + 1 } false

/-- One interval tick: the timer callback runs only while the interval
is scheduled (`clearInterval` in `stop()` removes it). -/
def tickFail (s : AppState) : AppState :=
  if s.pollTimerActive then pollDisconnected s else s

/-- The state right after `start()` begins polling. -/
def initAppState : AppState :=
  { isRunning := true, pollTimerActive := true, reconnectAttempts := 0,
    reconnectTries := 0, polls := 0 }

/-- The compiled form of a keyword made of plain word characters: one
literal atom per character. -/
def litItems (k : List Char) : List RItem :=
  k.map (fun c => RItem.one (RAtom.lit c))

/-! ## Helper lemmas -/

/-- A sequence of literal atoms matches exactly the literal word. -/
theorem matchSeq_litItems (k : List Char) : ∀ cs : List Char,
    (matchSeq (litItems k) cs = true) ↔ cs = k := by
  induction k with
  | nil =>
    intro cs
    cases cs <;> simp [matchSeq, matchChars, litItems]
  | cons a k2 ih =>
    intro cs
    cases cs with
    | nil => simp [matchSeq, matchChars, litItems]
    | cons c cs2 =>
      have ihc := ih cs2
      simp only [matchSeq, litItems, List.map_cons] at ihc ⊢
      simp only [matchChars, matchAtom, Bool.and_eq_true, decide_eq_true_eq, ihc,
        List.cons.injEq]
      constructor
      · rintro ⟨h1, h2⟩; exact ⟨h1.symm, h2⟩
      · rintro ⟨h1, h2⟩; exact ⟨h1.symm, h2⟩

theorem sliceLC_length (s : List Char) (i j : Nat) :
    (sliceLC s i j).length = min (j - i) (s.length - i) := by
  simp [sliceLC]

/-- The word-boundary-anchored regex of a plain word keyword tests
exactly the spec-side whole-word containment. -/
theorem regexTest_eq_wholeWord (k t : String) :
    regexTest (litItems k.data) t.data = wholeWordOccurs k t := by
  have bool_ext : ∀ (a b : Bool), (a = true ↔ b = true) → a = b := by decide
  apply bool_ext
  simp only [regexTest, wholeWordOccurs, List.any_eq_true, List.mem_range]
  constructor
  · rintro ⟨i, hi, j, hj, hc⟩
    simp only [Bool.and_eq_true, decide_eq_true_eq] at hc
    obtain ⟨⟨⟨hij, hbi⟩, hbj⟩, hm⟩ := hc
    have hslice := (matchSeq_litItems _ _).mp hm
    have hlen : (sliceLC t.data i j).length = k.data.length := by rw [hslice]
    rw [sliceLC_length] at hlen
    have hjlen : j ≤ t.data.length := Nat.lt_succ_iff.mp hj
    have hj_eq : j = i + k.data.length := by omega
    refine ⟨i, hi, ?_⟩
    rw [← hj_eq]
    simp only [Bool.and_eq_true, decide_eq_true_eq]
    exact ⟨⟨hslice, hbi⟩, hbj⟩
  · rintro ⟨i, hi, hc⟩
    simp only [Bool.and_eq_true, decide_eq_true_eq] at hc
    obtain ⟨⟨hslice, hbi⟩, hbj⟩ := hc
    have hlen : (sliceLC t.data i (i + k.data.length)).length = k.data.length := by
      rw [hslice]
    rw [sliceLC_length] at hlen
    have hile : i ≤ t.data.length := Nat.lt_succ_iff.mp hi
    refine ⟨i, hi, i + k.data.length, by omega, ?_⟩
    simp only [Bool.and_eq_true, decide_eq_true_eq]
    exact ⟨⟨⟨by omega, hbi⟩, hbj⟩, (matchSeq_litItems _ _).mpr hslice⟩

/-- Compiling a keyword of plain word characters succeeds and yields
its literal atoms. -/
theorem compileAux_wordlike : ∀ (cs : List Char) (acc : List RItem),
    cs.all isWordChar = true →
    compileAux cs acc = .ok (acc.reverse ++ litItems cs) := by
  intro cs
  induction cs with
  | nil => intro acc _; simp [compileAux, litItems]
  | cons c cs2 ih =>
    intro acc h
    simp only [List.all_cons, Bool.and_eq_true] at h
    have step : compileAux (c :: cs2) acc = compileAux cs2 (.one (.lit c) :: acc) := by
      simp only [compileAux]
      rw [if_pos h.1]
    rw [step, ih _ h.2]
    simp [litItems]

/-- The keyword loop on a list of plain word-character keywords never
throws and reports whether some keyword regex matches. -/
theorem keywordLoop_wordlike : ∀ (ks : List String) (t : List Char),
    (∀ k ∈ ks, k.data.all isWordChar = true) →
    keywordLoop ks t = .ok (ks.any fun k => regexTest (litItems k.data) t) := by
  intro ks
  induction ks with
  | nil => intro t _; simp [keywordLoop]
  | cons k ks2 ih =>
    intro t h
    have hk := h k (by simp)
    have hrest : ∀ k2 ∈ ks2, k2.data.all isWordChar = true :=
      fun k2 hm => h k2 (by simp [hm])
    rw [keywordLoop, compileWordRegex, compileAux_wordlike _ _ hk]
    simp only [List.reverse_nil, List.nil_append]
    by_cases hr : regexTest (litItems k.data) t = true
    · simp [hr]
    · simp only [Bool.not_eq_true] at hr
      simp [hr, ih t hrest]

/-- Marking an id makes `isProcessed` true for it. -/
theorem isProcessed_markProcessed (st : MessageStorage) (mid : Nat) :
    (st.markProcessed mid).isProcessed mid = true := by
  simp only [MessageStorage.markProcessed, MessageStorage.save,
    MessageStorage.isProcessed]
  by_cases h : mid ∈ st.processedIds <;> simp [h]

/-- `new Set(array)` of a duplicate-free array is that array (helper,
generalized over the fold accumulator). -/
theorem setFromList_aux : ∀ (l acc : List Nat), (acc ++ l).Nodup →
    l.foldl (fun acc2 a => if a ∈ acc2 then acc2 else acc2 ++ [a]) acc = acc ++ l := by
  intro l
  induction l with
  | nil => intro acc _; simp
  | cons a l2 ih =>
    intro acc h
    have hdis := (List.nodup_append.mp h).2.2
    have hna : a ∉ acc := fun hm => hdis hm (by simp)
    simp only [List.foldl_cons, if_neg hna]
    have h2 : ((acc ++ [a]) ++ l2).Nodup := by
      simpa [List.append_assoc] using h
    rw [ih _ h2]
    simp

/-- `new Set(array)` of a duplicate-free array is that array. -/
theorem setFromList_nodup (l : List Nat) (h : l.Nodup) : setFromList l = l := by
  simpa using setFromList_aux l [] (by simpa using h)

/-- One `pollStep` never lowers the cursor. -/
theorem pollStep_mono (st : ClientState) (b : List Message) :
    st.lastMessageId ≤ (pollStep st b).lastMessageId := by
  unfold pollStep getNewMessages
  by_cases hc : st.isConnected
  · by_cases hl : 0 < b.length
    · by_cases hm : st.lastMessageId < (b.map Message.id).foldl Nat.max 0
      · simp [hc, hl, hm]; omega
      · simp [hc, hl, hm]
    · simp [hc, hl]
  · simp [hc]

/-! ## Claim theorems -/

/-- Claim C1: the per-message pipeline `processMessage`: an
already-processed id is skipped without forwarding or marking; a
filter-rejected message is marked processed and not forwarded; a
matching message is forwarded and then marked; when the forward call
raises, the id is NOT marked; and after one pass `isProcessed(m.id)`
holds unless forwarding itself failed. -/
theorem C1_process_message_pipeline (f : JobFilter) (st : MessageStorage)
    (m : Message) (forwardOk : Bool) :
    (st.isProcessed m.id = true →
        processMessage f st m forwardOk = ⟨st, false, false⟩)
    ∧ (st.isProcessed m.id = false → f.isJobPost m = false →
        processMessage f st m forwardOk = ⟨st.markProcessed m.id, false, false⟩)
    ∧ (st.isProcessed m.id = false → f.isJobPost m = true → forwardOk = true →
        processMessage f st m forwardOk = ⟨st.markProcessed m.id, true, true⟩)
    ∧ (st.isProcessed m.id = false → f.isJobPost m = true → forwardOk = false →
        processMessage f st m forwardOk = ⟨st, true, false⟩
        ∧ (processMessage f st m forwardOk).storage.isProcessed m.id = false)
    ∧ ((processMessage f st m forwardOk).storage.isProcessed m.id = true
        ∨ (st.isProcessed m.id = false ∧ f.isJobPost m = true ∧ forwardOk = false)) := by
  refine ⟨?_, ?_, ?_, ?_, ?_⟩
  · intro h1; simp [processMessage, h1]
  · intro h1 h2; simp [processMessage, h1, h2]
  · intro h1 h2 h3; simp [processMessage, h1, h2, h3]
  · intro h1 h2 h3
    constructor
    · simp [processMessage, h1, h2, h3]
    · simp [processMessage, h1, h2, h3]
  · by_cases h1 : st.isProcessed m.id = true
    · left; simp [processMessage, h1]
    · simp only [Bool.not_eq_true] at h1
      by_cases h2 : f.isJobPost m = true
      · cases hf : forwardOk with
        | true =>
          left
          simp only [processMessage, h1, h2, hf, Bool.false_eq_true, if_false,
            Bool.not_true, if_true]
          simpa [processMessage, h1, h2] using isProcessed_markProcessed st m.id
        | false => right; exact ⟨h1, h2, rfl⟩
      · simp only [Bool.not_eq_true] at h2
        left
        simpa [processMessage, h1, h2] using isProcessed_markProcessed st m.id
  
/-- Witness for C1 at concrete inputs: keyword "backend", messages
with ids 5 and 6, an empty ledger and a ledger already holding id 5,
covering all four pipeline branches. -/
theorem C1_process_message_pipeline_witness :
    processMessage (mkJobFilter ["backend"]) ⟨[5], some [5]⟩
        (mkTextMessage 5 "Hiring backend engineer") true = ⟨⟨[5], some [5]⟩, false, false⟩
    ∧ processMessage (mkJobFilter ["backend"]) ⟨[], none⟩
        (mkTextMessage 6 "hello") true =
        ⟨(⟨[], none⟩ : MessageStorage).markProcessed 6, false, false⟩
    ∧ processMessage (mkJobFilter ["backend"]) ⟨[], none⟩
        (mkTextMessage 5 "Hiring backend engineer") true =
        ⟨(⟨[], none⟩ : MessageStorage).markProcessed 5, true, true⟩
    ∧ processMessage (mkJobFilter ["backend"]) ⟨[], none⟩
        (mkTextMessage 5 "Hiring backend engineer") false = ⟨⟨[], none⟩, true, false⟩ :=
  ⟨(C1_process_message_pipeline _ _ _ _).1 (by decide),
   (C1_process_message_pipeline _ _ _ _).2.1 (by decide) (by decide),
   (C1_process_message_pipeline _ _ _ _).2.2.1 (by decide) (by decide) rfl,
   ((C1_process_message_pipeline _ _ _ _).2.2.2.1 (by decide) (by decide) rfl).1⟩

/-- Claim C2: processing an already-processed id is a no-op (no
forward call, ledger — in memory and on disk — unchanged), and a
matching message delivered twice is forwarded exactly once: the first
pass forwards and marks, the second pass attempts no forward and
leaves the ledger unchanged. -/
theorem C2_already_processed_noop (f : JobFilter) (st : MessageStorage)
    (m : Message) (forwardOk : Bool) :
    (st.isProcessed m.id = true →
        processMessage f st m forwardOk = ⟨st, false, false⟩)
    ∧ (st.isProcessed m.id = false → f.isJobPost m = true →
        processMessage f st m true = ⟨st.markProcessed m.id, true, true⟩
        ∧ processMessage f (st.markProcessed m.id) m true =
            ⟨st.markProcessed m.id, false, false⟩) := by
  constructor
  · intro h1; simp [processMessage, h1]
  · intro h1 h2
    constructor
    · simp [processMessage, h1, h2]
    · simp [processMessage, isProcessed_markProcessed st m.id]

/-- Witness for C2: the matching message with id 5 against an empty
ledger and against the ledger produced by the first pass. -/
theorem C2_already_processed_noop_witness :
    processMessage (mkJobFilter ["backend"]) ⟨[], none⟩
        (mkTextMessage 5 "Hiring backend engineer") true =
        ⟨(⟨[], none⟩ : MessageStorage).markProcessed 5, true, true⟩
    ∧ processMessage (mkJobFilter ["backend"])
        ((⟨[], none⟩ : MessageStorage).markProcessed 5)
        (mkTextMessage 5 "Hiring backend engineer") true =
        ⟨(⟨[], none⟩ : MessageStorage).markProcessed 5, false, false⟩ :=
  ((C2_already_processed_noop (mkJobFilter ["backend"]) ⟨[], none⟩
      (mkTextMessage 5 "Hiring backend engineer") true).2 (by decide) (by decide))

/-- Claim C4 (amended): for a filter whose stored keywords consist of
word characters only (no regex metacharacters), `isJobPost` returns
true iff the extracted text is nonempty and some keyword occurs in its
lowercased form as a whole word (word-boundary anchored, the first
match ending the scan); in particular keyword "react" matches
"React developer needed" but neither "reactor maintenance" nor
"reacting".  (For keywords containing regex metacharacters the
equivalence fails — see the counterexample theorem.) -/
theorem C4_keyword_filter_wordlike (f : JobFilter) (m : Message)
    (hk : ∀ k ∈ f.keywords, k.data.all isWordChar = true) :
    (f.isJobPost m =
      ((extractText m != "") &&
        f.keywords.any fun k => wholeWordOccurs k (strToLower (extractText m))))
    ∧ (mkJobFilter ["react"]).isJobPost (mkTextMessage 1 "React developer needed") = true
    ∧ (mkJobFilter ["react"]).isJobPost (mkTextMessage 2 "reactor maintenance") = false
    ∧ (mkJobFilter ["react"]).isJobPost (mkTextMessage 3 "reacting") = false := by
  refine ⟨?_, by decide, by decide, by decide⟩
  by_cases ht : (extractText m).data = []
  · have hempty : extractText m = "" := String.ext (by rw [ht])
    simp [JobFilter.isJobPost, hempty]
  · have hne : extractText m ≠ "" := fun hcon => ht (by rw [hcon])
    have hbne : (extractText m != "") = true := by simp [hne]
    rw [JobFilter.isJobPost, JobFilter.containsKeywords]
    simp only [if_neg ht]
    rw [keywordLoop_wordlike _ _ hk, hbne, Bool.true_and]
    have hcong : ∀ k : String,
        regexTest (litItems k.data) (toLowerLC (extractText m).data) =
          wholeWordOccurs k (strToLower (extractText m)) :=
      fun k => regexTest_eq_wholeWord k (strToLower (extractText m))
    simp only [hcong]

/-- Counterexample to C4 as stated for all keywords: with keyword "."
the filter reports a match on the text "x", although "x" does not
contain "." as a (case-insensitive) whole word. -/
theorem C4_keyword_filter_counterexample :
    (mkJobFilter ["."]).isJobPost (mkTextMessage 1 "x") = true
    ∧ wholeWordOccurs "." (strToLower (extractText (mkTextMessage 1 "x"))) = false := by
  decide

/-- Witness for C4 at the filter built from keyword "react" and the
message "React developer needed". -/
theorem C4_keyword_filter_wordlike_witness :
    (∀ k ∈ (mkJobFilter ["react"]).keywords, k.data.all isWordChar = true)
    ∧ ((mkJobFilter ["react"]).isJobPost (mkTextMessage 1 "React developer needed") =
        ((extractText (mkTextMessage 1 "React developer needed") != "") &&
          (mkJobFilter ["react"]).keywords.any fun k =>
            wholeWordOccurs k
              (strToLower (extractText (mkTextMessage 1 "React developer needed"))))) :=
  ⟨by decide,
   (C4_keyword_filter_wordlike (mkJobFilter ["react"])
      (mkTextMessage 1 "React developer needed") (by decide)).1⟩

/-- Claim C10: keywords reach the regex unescaped.  Keyword "c++"
makes the regex construction throw, `isJobPost` swallows the error and
reports the message "c++ developer" — whose text contains "c++"
verbatim as a standalone token — as no match; conversely keyword "."
matches the text "a", which does not literally contain ".". -/
theorem C10_unescaped_keyword_metacharacters :
    occursAsToken "c++" (extractText (mkTextMessage 1 "c++ developer")) = true
    ∧ compileWordRegex "c++" = .error ()
    ∧ (mkJobFilter ["c++"]).isJobPost (mkTextMessage 1 "c++ developer") = false
    ∧ (mkJobFilter ["."]).isJobPost (mkTextMessage 2 "a") = true
    ∧ containsSubstr "." (extractText (mkTextMessage 2 "a")) = false := by
  decide

/-- Claim C5: `cleanup` is a no-op when the ledger size is at most the
(positive) ceiling; when the size exceeds the ceiling it keeps exactly
the `maxSize` most recently inserted ids — a suffix of the insertion
order — and persists the result. -/
theorem C5_cleanup_retention (st : MessageStorage) (maxSize : Nat)
    (hpos : 0 < maxSize) :
    (st.processedIds.length ≤ maxSize → st.cleanup maxSize = st)
    ∧ (maxSize < st.processedIds.length →
        (st.cleanup maxSize).processedIds =
            st.processedIds.drop (st.processedIds.length - maxSize)
          ∧ (st.cleanup maxSize).processedIds.length = maxSize
          ∧ (st.cleanup maxSize).processedIds <:+ st.processedIds
          ∧ (st.cleanup maxSize).stored = some ((st.cleanup maxSize).processedIds)) := by
  constructor
  · intro h
    simp [MessageStorage.cleanup, Nat.not_lt.mpr h]
  · intro h
    have h0 : ¬(maxSize = 0) := by omega
    have hids : (st.cleanup maxSize).processedIds =
        st.processedIds.drop (st.processedIds.length - maxSize) := by
      simp [MessageStorage.cleanup, h, h0, MessageStorage.save]
    have hsuf : st.processedIds.drop (st.processedIds.length - maxSize) <:+
        st.processedIds :=
      ⟨st.processedIds.take (st.processedIds.length - maxSize),
        List.take_append_drop _ _⟩
    have hstored : (st.cleanup maxSize).stored =
        some ((st.cleanup maxSize).processedIds) := by
      simp [MessageStorage.cleanup, h, h0, MessageStorage.save]
    refine ⟨hids, ?_, hids ▸ hsuf, hstored⟩
    rw [hids]
    simp only [List.length_drop]
    omega

/-- Witness for C5: a ledger of the 10050 ids 0..10049 with ceiling
10000 keeps exactly 10000 ids, a suffix of the insertion order, and
persists them. -/
theorem C5_cleanup_retention_witness :
    (({ processedIds := List.range 10050, stored := none } : MessageStorage).cleanup
        10000).processedIds.length = 10000
    ∧ (({ processedIds := List.range 10050, stored := none } : MessageStorage).cleanup
        10000).processedIds <:+
        ({ processedIds := List.range 10050, stored := none } : MessageStorage).processedIds
    ∧ (({ processedIds := List.range 10050, stored := none } : MessageStorage).cleanup
        10000).stored =
        some ((({ processedIds := List.range 10050, stored := none } : MessageStorage).cleanup
          10000).processedIds) := by
  have h := (C5_cleanup_retention
    { processedIds := List.range 10050, stored := none } 10000 (by norm_num)).2 (by simp)
  exact ⟨h.2.1, h.2.2.1, h.2.2.2⟩

/-- Claim C6: ledger persistence round-trips: saving the ledger and
loading a fresh `MessageStorage` from the written file yields exactly
the same ids. -/
theorem C6_save_load_roundtrip (st : MessageStorage)
    (h : st.processedIds.Nodup) :
    loadStorage ((st.save).stored) =
      { processedIds := st.processedIds, stored := some st.processedIds } := by
  simp [MessageStorage.save, loadStorage, setFromList_nodup _ h]

/-- Witness for C6 at the three-element ledger [3, 1, 2]. -/
theorem C6_save_load_roundtrip_witness :
    loadStorage (((⟨[3, 1, 2], none⟩ : MessageStorage).save).stored) =
      { processedIds := [3, 1, 2], stored := some [3, 1, 2] } :=
  C6_save_load_roundtrip ⟨[3, 1, 2], none⟩ (by decide)

/-- Claim C7: with the channel unreachable and every reconnect attempt
failing, five interval ticks each make one failing reconnect attempt;
the sixth tick finds the budget of `maxReconnectAttempts = 5`
exhausted and `handleReconnection` calls `stop()`: `isRunning` is
cleared and the interval timer cancelled, exactly 5 reconnect attempts
were ever made, and every later tick changes nothing — in particular
no further poll body runs and no pipeline iteration starts. -/
theorem C7_reconnect_exhaustion_stops :
    (tickFail^[6] initAppState).isRunning = false
    ∧ (tickFail^[6] initAppState).pollTimerActive = false
    ∧ (tickFail^[6] initAppState).reconnectTries = 5
    ∧ (tickFail^[5] initAppState).reconnectAttempts = maxReconnectAttempts
    ∧ (∀ k : Nat, tickFail^[k + 6] initAppState = tickFail^[6] initAppState)
    ∧ (∀ k : Nat, (tickFail^[k + 6] initAppState).polls =
        (tickFail^[6] initAppState).polls) := by
  have h6 : tickFail^[6] initAppState = ⟨false, false, 5, 5, 6⟩ := by decide
  have hstep : tickFail (⟨false, false, 5, 5, 6⟩ : AppState) = ⟨false, false, 5, 5, 6⟩ := by
    decide
  have hstab : ∀ k : Nat, tickFail^[k + 6] initAppState = tickFail^[6] initAppState := by
    intro k
    induction k with
    | zero => rfl
    | succ n ih =>
      have hsucc : n + 1 + 6 = (n + 6) + 1 := by omega
      rw [hsucc, Function.iterate_succ_apply', ih, h6, hstep]
  exact ⟨by rw [h6], by rw [h6], by rw [h6], by decide, hstab,
    fun k => by rw [hstab k]⟩

/-- Claim C8: `validateChat` returns numeric-looking identifiers
unchanged, independently of the bot identity and of the chat lookup
(neither is consulted); a username identifier equal to the bot user
name raises; any other username identifier whose lookup fails is
returned optimistically in its raw `@username` form. -/
theorem C8_validate_destination :
    (∀ (t bu1 bu2 : String) (g1 g2 : String → Option Int), isNumericId t = true →
        validateChat t bu1 g1 = .ok t ∧ validateChat t bu1 g1 = validateChat t bu2 g2)
    ∧ (∀ (t bu : String) (g : String → Option Int), isNumericId t = false →
        strToLower ⟨removeFirstAt t.data⟩ = strToLower bu →
        validateChat t bu g = .error ("Cannot send messages to bot own username"))
    ∧ (∀ (t bu : String) (g : String → Option Int), isNumericId t = false →
        strToLower ⟨removeFirstAt t.data⟩ ≠ strToLower bu →
        g ("@" ++ (⟨removeFirstAt t.data⟩ : String)) = none →
        validateChat t bu g = .ok ("@" ++ (⟨removeFirstAt t.data⟩ : String))) := by
  refine ⟨?_, ?_, ?_⟩
  · intro t bu1 bu2 g1 g2 h
    constructor
    · simp [validateChat, h]
    · simp [validateChat, h]
  · intro t bu g h1 h2
    simp [validateChat, h1, h2]
  · intro t bu g h1 h2 h3
    simp [validateChat, h1, h2, h3]

/-- Witness for C8: a numeric chat id passes through for any bot name
and lookup; the target "@MyBot" with bot user name "mybot" raises; the
target "@somechannel" whose lookup fails is returned as-is. -/
theorem C8_validate_destination_witness :
    validateChat "-1001234567890" "mybot" (fun _ => none) = .ok "-1001234567890"
    ∧ validateChat "-1001234567890" "mybot" (fun _ => none) =
        validateChat "-1001234567890" "otherbot" (fun _ => some 7)
    ∧ validateChat "@MyBot" "mybot" (fun _ => none) =
        .error ("Cannot send messages to bot own username")
    ∧ validateChat "@somechannel" "mybot" (fun _ => none) = .ok "@somechannel" := by
  have h1 := (C8_validate_destination).1 "-1001234567890" "mybot" "otherbot"
    (fun _ => none) (fun _ => some 7) (by decide)
  have h2 := (C8_validate_destination).2.1 "@MyBot" "mybot" (fun _ => none)
    (by decide) (by decide)
  have h3 := (C8_validate_destination).2.2 "@somechannel" "mybot" (fun _ => none)
    (by decide) (by decide) rfl
  have hstr : ("@" ++ (⟨removeFirstAt "@somechannel".data⟩ : String)) = "@somechannel" := by
    decide
  exact ⟨h1.1, h1.2, h2, by rw [← hstr]; exact h3⟩

/-- Claim C9: the cursor `lastMessageId` is monotone non-decreasing
across any sequence of `getNewMessages` calls; a successful call sets
it to the maximum observed id exactly when that maximum exceeds it,
and an empty fetch leaves the state unchanged. -/
theorem C9_cursor_monotone :
    (∀ (st : ClientState) (batches : List (List Message)),
        st.lastMessageId ≤ (runPolls st batches).lastMessageId)
    ∧ (∀ (st : ClientState) (fetched : List Message) (st2 : ClientState)
          (ms : List Message),
        getNewMessages st fetched = .ok (st2, ms) →
        st.lastMessageId ≤ st2.lastMessageId
        ∧ (fetched = [] → st2 = st)
        ∧ (st.lastMessageId < (fetched.map Message.id).foldl Nat.max 0 →
            st2.lastMessageId = (fetched.map Message.id).foldl Nat.max 0)) := by
  constructor
  · intro st batches
    induction batches generalizing st with
    | nil => simp [runPolls]
    | cons b bs ih =>
      calc st.lastMessageId ≤ (pollStep st b).lastMessageId := pollStep_mono st b
        _ ≤ (runPolls (pollStep st b) bs).lastMessageId := ih (pollStep st b)
  · intro st fetched st2 ms hok
    by_cases hc : st.isConnected
    · by_cases hl : 0 < fetched.length
      · by_cases hm : st.lastMessageId < (fetched.map Message.id).foldl Nat.max 0
        · simp [getNewMessages, hc, hl, hm] at hok
          obtain ⟨hst, hms⟩ := hok
          have hne : fetched ≠ [] := by
            intro he; rw [he] at hl; simp at hl
          refine ⟨?_, fun he => absurd he hne, fun _ => ?_⟩
          · rw [← hst]
            simpa using Nat.le_of_lt hm
          · rw [← hst]
        · simp [getNewMessages, hc, hl, hm] at hok
          obtain ⟨hst, hms⟩ := hok
          refine ⟨?_, fun _ => hst.symm, fun hcon => absurd hcon hm⟩
          rw [← hst]
      · simp [getNewMessages, hc, hl] at hok
        obtain ⟨hst, hms⟩ := hok
        have hf : fetched = [] := List.eq_nil_of_length_eq_zero (by omega)
        refine ⟨?_, fun _ => hst.symm, fun hcon => ?_⟩
        · rw [← hst]
        · rw [hf] at hcon
          simp at hcon
    · simp [getNewMessages, hc] at hok

/-- Witness for C9: from cursor 3, fetching a message with id 5 and
then nothing leaves the cursor at least 3; an empty successful fetch
returns the state unchanged. -/
theorem C9_cursor_monotone_witness :
    (⟨true, 3⟩ : ClientState).lastMessageId ≤
        (runPolls ⟨true, 3⟩ [[mkTextMessage 5 "x"], []]).lastMessageId
    ∧ ((⟨true, 7⟩ : ClientState).lastMessageId ≤ (⟨true, 7⟩ : ClientState).lastMessageId
        ∧ (⟨true, 7⟩ : ClientState) = ⟨true, 7⟩) := by
  refine ⟨C9_cursor_monotone.1 _ _, ?_⟩
  have h := C9_cursor_monotone.2 ⟨true, 7⟩ [] ⟨true, 7⟩ [] (by decide)
  exact ⟨h.1, h.2.1 rfl⟩

/-- Witness for C7: the stopped state is reached and tick 8 (two ticks
past the stopping tick) changes nothing. -/
theorem C7_reconnect_exhaustion_stops_witness :
    (tickFail^[6] initAppState).isRunning = false
    ∧ tickFail^[2 + 6] initAppState = tickFail^[6] initAppState :=
  ⟨(C7_reconnect_exhaustion_stops).1, (C7_reconnect_exhaustion_stops).2.2.2.2.1 2⟩
